import Mathlib

/-!
Verification development for the arXiv-to-S3 PDF crawler
(`lambda_function.py`).  The program is embedded shallowly: the external
world (S3 head/upload results, HTTP fetch results, the feed response) is a
record of response functions, and every run-visible effect (store writes,
outbound PDF fetches, sleeps, uploads) is threaded through an explicit
state record so that theorems can speak about which effects occurred.
-/

/-- Substring test on character lists, the semantics of the Python
`needle in haystack` operator for strings. -/
def containsSub (needle : List Char) : List Char → Bool
  | [] => needle.isEmpty
  | c :: rest => List.isPrefixOf needle (c :: rest) || containsSub needle rest

/-- Models `"pdf" in ctype.lower()` from `download_and_upload`.  ASCII
lowercasing matches Python `str.lower` on the ASCII content-type values
in play. -/
def ctypeHasPdf (ctype : String) : Bool :=
  containsSub "pdf".toList (ctype.toList.map Char.toLower)

/-- Split a character list at every slash, keeping empty segments, the
semantics of `text.split("/")`. -/
def splitSlash : List Char → List (List Char)
  | [] => [[]]
  | c :: rest =>
    let r := splitSlash rest
    if c = '/' then [] :: r
    else
      match r with
      | [] => [[c]]
      | seg :: segs => (c :: seg) :: segs

/-- Models `text.rsplit("/", 1)[-1]`: the part of `s` after the last
slash (all of `s` when it has no slash). -/
def rsplitLast (s : String) : String :=
  String.mk ((splitSlash s.toList).getLastD [])

/-- One `<link>` element of a feed entry: its `title` attribute and its
`href` attribute, each possibly absent (`link.get` returns `None`). -/
structure Link where
  title : Option String
  href : Option String
deriving Repr, DecidableEq

/-- One `<entry>` element: the text of its `<id>` child and its links. -/
structure Entry where
  idText : String
  links : List Link
deriving Repr, DecidableEq

/-- The parsed feed document: its list of `<entry>` elements. -/
structure Feed where
  entries : List Entry
deriving Repr, DecidableEq

/-- Run configuration: `s3Pre` models the `S3_PREFIX` environment
variable (the key prefix inside the bucket). -/
structure Config where
  s3Pre : String
deriving Repr, DecidableEq

/-- Result of one `requests.get(pdf_url, ...)` call: either the request
raises (network error) or a response arrives with a status code, an
optional `Content-Type` header and a body. -/
inductive FetchResult
  | netError
  | response (status : Nat) (contentType : Option String) (body : String)
deriving Repr, DecidableEq

deriving instance DecidableEq for Except

/-- Result of the single feed HTTP request: either the request raises, or
a response arrives with a status code together with the result of
`ET.fromstring` on its text (parsing raises on a malformed body). -/
inductive FeedHttp
  | netError
  | response (status : Nat) (parsed : Except String Feed)
deriving Repr, DecidableEq

/-- The external world seen by the sync engine: `headErr key` is the
service error code (if any) that `s3.head_object` reports for `key`
independently of existence; `fetchPdf url a` is the outcome of the
`requests.get` issued for `url` on attempt number `a`; `uploadOk key a`
says whether `s3.upload_fileobj` for `key` succeeds on attempt `a`. -/
structure SyncEnv where
  headErr : String → Option String
  fetchPdf : String → Nat → FetchResult
  uploadOk : String → Nat → Bool

/-- The whole external world of one invocation: the feed request outcome
plus the world seen by the sync engine. -/
structure Env where
  feedHttp : FeedHttp
  sync : SyncEnv

/-- Observable run state: the store contents (key, body pairs in write
order) and the traces of outbound PDF fetches (url, attempt), sleeps
(seconds) and uploads (keys) performed so far. -/
structure SyncState where
  store : List (String × String)
  fetches : List (String × Nat)
  sleeps : List Nat
  uploads : List String
deriving Repr, DecidableEq

/-- Does the store hold an object under `key`? -/
def hasKey (store : List (String × String)) (key : String) : Bool :=
  store.any (fun kv => kv.1 = key)

/-- Outcome of `s3.head_object`: success, or a `ClientError` carrying an
error code. An injected service error for the key takes precedence;
otherwise existence decides between success and a `"404"` code. -/
inductive HeadResult
  | success
  | clientError (code : String)
deriving Repr, DecidableEq

/-- Models the `s3.head_object(Bucket=..., Key=key)` call. -/
def head_object (se : SyncEnv) (store : List (String × String)) (key : String) :
    HeadResult :=
  match se.headErr key with
  | some code => .clientError code
  | none => if hasKey store key then .success else .clientError "404"

/-- Embeds `already_in_s3`: `True` on head success, `False` when the
`ClientError` code is `"404"`, re-raise otherwise. -/
def already_in_s3 (se : SyncEnv) (store : List (String × String)) (key : String) :
    Except String Bool :=
  match head_object se store key with
  | .success => .ok true
  | .clientError code => if code = "404" then .ok false else .error code

/-- Embeds `fetch_feed`: `raise_for_status` raises on a 4xx/5xx status,
then `ET.fromstring` either yields the parsed root or raises. -/
def fetch_feed (env : Env) : Except String Feed :=
  match env.feedHttp with
  | .netError => .error "ConnectionError"
  | .response status parsed =>
    if 400 ≤ status then .error ("HTTPError " ++ toString status)
    else parsed

/-- Models the Python falsiness test `if not pdf_url` on an optional
string: true for `None` and for the empty string. -/
def falsy : Option String → Bool
  | none => true
  | some s => s = ""

/-- Models the link-selection loop of `iter_entries`: the `href` of the
first link whose `title` attribute equals `"pdf"` (the loop breaks
there even when that link has no `href`). -/
def findPdfUrl : List Link → Option String
  | [] => none
  | l :: rest => if l.title = some "pdf" then l.href else findPdfUrl rest

/-- Embeds the generator `iter_entries` over a list of entries: returns
the yielded (paper_id, pdf_url) pairs in order together with the
warning messages logged for dropped entries. -/
def iterEntriesList : List Entry → List (String × String) × List String
  | [] => ([], [])
  | e :: rest =>
    let paper_id := rsplitLast e.idText
    let pdf_url := findPdfUrl e.links
    let r := iterEntriesList rest
    if falsy pdf_url then (r.1, ("no pdf link for " ++ paper_id) :: r.2)
    else ((paper_id, pdf_url.getD "") :: r.1, r.2)

/-- Embeds `iter_entries` applied to the parsed feed root. -/
def iter_entries (feed : Feed) : List (String × String) × List String :=
  iterEntriesList feed.entries

/-- `PER_FILE_RETRY = 2` from the source configuration block. -/
def PER_FILE_RETRY : Nat := 2

/-- The canonical store key `f"{S3_PREFIX}{paper_id}.pdf"`. -/
def mkKey (pre paper_id : String) : String :=
  pre ++ (paper_id ++ ".pdf")

/-- One iteration of the retry loop body of `download_and_upload`:
`requests.get` (recorded in the fetch trace), `raise_for_status`, the
content-type gate, then `s3.upload_fileobj`.  Returns the raised
exception message or success, plus the updated state. -/
def attemptOnce (se : SyncEnv) (key url : String) (a : Nat) (s : SyncState) :
    Except String Unit × SyncState :=
  let s1 : SyncState := { s with fetches := s.fetches ++ [(url, a)] }
  match se.fetchPdf url a with
  | .netError => (.error "ConnectionError", s1)
  | .response status ctype body =>
    if 400 ≤ status then (.error ("HTTPError " ++ toString status), s1)
    else if ctypeHasPdf (ctype.getD "") then
      if se.uploadOk key a then
        (.ok (), { s1 with store := s1.store ++ [(key, body)],
                           uploads := s1.uploads ++ [key] })
      else (.error "UploadFailed", s1)
    else (.error ("Non-PDF content type " ++ ctype.getD ""), s1)

/-- The retry loop `for attempt in range(1, PER_FILE_RETRY + 1)` of
`download_and_upload`, over the list of remaining attempt numbers.  On
failure at the last attempt the exception propagates; otherwise the
loop sleeps `2 * attempt` seconds and retries.  Falling off the end of
the loop returns Python `None`, modelled `.ok none`. -/
def downloadLoop (se : SyncEnv) (key url : String) :
    List Nat → SyncState → Except String (Option String) × SyncState
  | [], s => (.ok none, s)
  | a :: rest, s =>
    match attemptOnce se key url a s with
    | (.ok _, s2) => (.ok (some "ok"), s2)
    | (.error e, s2) =>
      if a = PER_FILE_RETRY then (.error e, s2)
      else downloadLoop se key url rest { s2 with sleeps := s2.sleeps ++ [2 * a] }

/-- Embeds `download_and_upload`: existence check first (its raise
propagates), skip when present, otherwise the fetch-and-store retry
loop over attempts `1 .. PER_FILE_RETRY`. -/
def download_and_upload (se : SyncEnv) (cfg : Config) (paper_id pdf_url : String)
    (s : SyncState) : Except String (Option String) × SyncState :=
  let key := mkKey cfg.s3Pre paper_id
  match already_in_s3 se s.store key with
  | .error code => (.error ("ClientError " ++ code), s)
  | .ok true => (.ok (some "skipped"), s)
  | .ok false => downloadLoop se key pdf_url (List.range' 1 PER_FILE_RETRY) s

/-- The per-entry loop of `lambda_handler` with its three counters: a
`"ok"` return increments `ok`, any other non-raising return increments
`skip`, a raised exception is caught and increments `fail`. -/
def entryLoop (se : SyncEnv) (cfg : Config) :
    List (String × String) → Nat → Nat → Nat → SyncState →
      (Nat × Nat × Nat) × SyncState
  | [], ok, skip, fail, s => ((ok, skip, fail), s)
  | (pid, url) :: rest, ok, skip, fail, s =>
    match download_and_upload se cfg pid url s with
    | (.ok st, s2) =>
      if st = some "ok" then entryLoop se cfg rest (ok + 1) skip fail s2
      else entryLoop se cfg rest ok (skip + 1) fail s2
    | (.error _, s2) => entryLoop se cfg rest ok skip (fail + 1) s2

/-- Embeds `lambda_handler`: fetch the feed (a failure there, or anywhere
outside the inner per-entry `try`, re-raises), run the entry loop, and
return the counter dictionary `{"ok": ok, "skipped": skip, "failed": fail}`
modelled as an association list in insertion order. -/
def lambda_handler (env : Env) (cfg : Config) (s0 : SyncState) :
    Except String (List (String × Nat)) × SyncState :=
  match fetch_feed env with
  | .error e => (.error e, s0)
  | .ok feed =>
    let pairs := (iter_entries feed).1
    let r := entryLoop env.sync cfg pairs 0 0 0 s0
    (.ok [("ok", r.1.1), ("skipped", r.1.2.1), ("failed", r.1.2.2)], r.2)

/-- Per-attempt failure predicate for the fetch-and-store step: the
attempt raises iff the request raises, the status is 4xx/5xx, the
content-type gate rejects, or the store write fails. -/
def attemptFails (se : SyncEnv) (key url : String) (a : Nat) : Bool :=
  match se.fetchPdf url a with
  | .netError => true
  | .response status ctype _ =>
    decide (400 ≤ status) || !ctypeHasPdf (ctype.getD "") || !se.uploadOk key a

/-- A fetch outcome that is a success-status response whose declared
content type lacks a case-insensitive "pdf" substring. -/
def nonPdfSuccess : FetchResult → Bool
  | .netError => false
  | .response status ctype _ =>
    decide (status < 400) && !ctypeHasPdf (ctype.getD "")

/-- A sync environment in which every head check reports absence and
every fetch returns a good PDF response. -/
def seAll : SyncEnv :=
  { headErr := fun _ => none
    fetchPdf := fun _ _ => .response 200 (some "application/pdf") "BODY"
    uploadOk := fun _ _ => true }

/-- A concrete feed entry with a PDF link. -/
def entry1 : Entry :=
  { idText := "http://arxiv.org/abs/2505.05471v1"
    links := [{ title := some "pdf", href := some "http://arxiv.org/pdf/2505.05471v1" }] }

/-- A concrete one-entry feed. -/
def feed1 : Feed := { entries := [entry1] }

/-- A healthy invocation environment over `feed1`. -/
def envGood : Env := { feedHttp := .response 200 (.ok feed1), sync := seAll }

/-- A concrete configuration with key prefix `arxiv/`. -/
def cfg1 : Config := { s3Pre := "arxiv/" }

/-- The empty initial run state. -/
def sEmpty : SyncState := { store := [], fetches := [], sleeps := [], uploads := [] }

/-- The run state after a successful first run of `envGood` from `sEmpty`. -/
def sAfterGood : SyncState :=
  { store := [("arxiv/2505.05471v1.pdf", "BODY")]
    fetches := [("http://arxiv.org/pdf/2505.05471v1", 1)]
    sleeps := []
    uploads := ["arxiv/2505.05471v1.pdf"] }

/-- Like `seAll` but every PDF fetch raises a network error. -/
def seBad : SyncEnv := { seAll with fetchPdf := fun _ _ => .netError }

/-- An environment over `feed1` whose PDF fetches always fail. -/
def envBad : Env := { feedHttp := .response 200 (.ok feed1), sync := seBad }

/-- A concrete entry that has links but none titled `pdf`. -/
def entryNoLink : Entry :=
  { idText := "http://arxiv.org/abs/0000.00000v1"
    links := [{ title := some "doi", href := some "http://doi.org/x" }] }

/-- A store state already holding the canonical key of `entry1`. -/
def sWithKey : SyncState :=
  { store := [("arxiv/2505.05471v1.pdf", "OLD")], fetches := [], sleeps := [], uploads := [] }

/-- Like `seAll` but every PDF fetch returns an HTML page with status 200. -/
def seHtml : SyncEnv :=
  { seAll with fetchPdf := fun _ _ => .response 200 (some "text/html") "<html>" }

/-- Like `seAll` but every head check reports a 500 service error. -/
def seErr500 : SyncEnv := { seAll with headErr := fun _ => some "500" }

/-! ### Entry resolver lemmas -/

theorem iterEntriesList_append (l1 l2 : List Entry) :
    iterEntriesList (l1 ++ l2)
      = ((iterEntriesList l1).1 ++ (iterEntriesList l2).1,
         (iterEntriesList l1).2 ++ (iterEntriesList l2).2) := by
  induction l1 with
  | nil => simp [iterEntriesList]
  | cons e rest ih =>
    simp only [List.cons_append, iterEntriesList]
    cases hf : falsy (findPdfUrl e.links) <;> simp [hf, ih]

theorem findPdfUrl_eq_none (links : List Link)
    (h : ∀ l ∈ links, l.title ≠ some "pdf") : findPdfUrl links = none := by
  induction links with
  | nil => rfl
  | cons l rest ih =>
    have h1 : l.title ≠ some "pdf" := h l (List.mem_cons_self l rest)
    simp only [findPdfUrl, if_neg h1]
    exact ih (fun x hx => h x (List.mem_cons_of_mem l hx))

theorem iterEntriesList_fst_filterMap (l : List Entry) :
    (iterEntriesList l).1 = l.filterMap (fun e =>
      match findPdfUrl e.links with
      | none => none
      | some u => if u = "" then none else some (rsplitLast e.idText, u)) := by
  induction l with
  | nil => rfl
  | cons e rest ih =>
    cases hf : findPdfUrl e.links with
    | none => simp [iterEntriesList, hf, falsy, ih]
    | some u =>
      by_cases hu : u = ""
      · subst hu; simp [iterEntriesList, hf, falsy, ih]
      · simp [iterEntriesList, hf, falsy, hu, ih]

/-- C7: the identifier of every yielded pair is the final path segment of
the canonical id of the entry (version suffix preserved), the store key is
the prefix followed by the identifier and ".pdf", and in particular
"http://arxiv.org/abs/2505.05471v1" yields identifier "2505.05471v1"
and key prefix ++ "2505.05471v1.pdf". -/
theorem C7_key_derivation :
    (∀ feed : Feed, (iter_entries feed).1 = feed.entries.filterMap (fun e =>
        match findPdfUrl e.links with
        | none => none
        | some u => if u = "" then none else some (rsplitLast e.idText, u)))
    ∧ rsplitLast "http://arxiv.org/abs/2505.05471v1" = "2505.05471v1"
    ∧ (∀ p pid : String, mkKey p pid = p ++ (pid ++ ".pdf"))
    ∧ (∀ p : String, mkKey p "2505.05471v1" = p ++ "2505.05471v1.pdf") := by
  refine ⟨fun feed => iterEntriesList_fst_filterMap feed.entries, by decide, fun p pid => rfl, fun p => ?_⟩
  show p ++ ("2505.05471v1" ++ ".pdf") = p ++ "2505.05471v1.pdf"
  exact congrArg (fun t => p ++ t) (by decide)

/-- C8: an entry with no link titled "pdf" is dropped with a warning: it
is not yielded, it contributes to none of the counters (the whole run
result is the same as on the feed without it), and it does not abort
the run. -/
theorem C8_missing_link_dropped (pre post : List Entry) (e : Entry) (se : SyncEnv)
    (cfg : Config) (s0 : SyncState)
    (h : ∀ l ∈ e.links, l.title ≠ some "pdf") :
    (iterEntriesList (pre ++ e :: post)).1 = (iterEntriesList (pre ++ post)).1
    ∧ (iterEntriesList (pre ++ e :: post)).2
        = (iterEntriesList pre).2
            ++ ("no pdf link for " ++ rsplitLast e.idText) :: (iterEntriesList post).2
    ∧ lambda_handler ⟨.response 200 (.ok ⟨pre ++ e :: post⟩), se⟩ cfg s0
        = lambda_handler ⟨.response 200 (.ok ⟨pre ++ post⟩), se⟩ cfg s0 := by
  have hnone : findPdfUrl e.links = none := findPdfUrl_eq_none e.links h
  have hsingle : iterEntriesList [e] = ([], ["no pdf link for " ++ rsplitLast e.idText]) := by
    simp [iterEntriesList, hnone, falsy]
  have hsplit : pre ++ e :: post = pre ++ ([e] ++ post) := by simp
  have h1 : (iterEntriesList (pre ++ e :: post)).1 = (iterEntriesList (pre ++ post)).1 := by
    rw [hsplit, iterEntriesList_append, iterEntriesList_append, hsingle,
      iterEntriesList_append]
    simp
  refine ⟨h1, ?_, ?_⟩
  · rw [hsplit, iterEntriesList_append, iterEntriesList_append, hsingle]
    simp
  · have h2 : (iter_entries ⟨pre ++ e :: post⟩).1 = (iter_entries ⟨pre ++ post⟩).1 := by
      simpa [iter_entries] using h1
    simp [lambda_handler, fetch_feed, h2]

/-! ### Sync engine lemmas -/

theorem already_in_s3_absent (se : SyncEnv) (store : List (String × String)) (key : String)
    (h1 : se.headErr key = none) (h2 : hasKey store key = false) :
    already_in_s3 se store key = .ok false := by
  simp [already_in_s3, head_object, h1, h2]

theorem download_skip_of_present (se : SyncEnv) (cfg : Config) (pid url : String)
    (s : SyncState) (h1 : se.headErr (mkKey cfg.s3Pre pid) = none)
    (h2 : hasKey s.store (mkKey cfg.s3Pre pid) = true) :
    download_and_upload se cfg pid url s = (.ok (some "skipped"), s) := by
  simp [download_and_upload, already_in_s3, head_object, h1, h2]

theorem download_headErr (se : SyncEnv) (cfg : Config) (pid url : String)
    (s : SyncState) (code : String) (h1 : se.headErr (mkKey cfg.s3Pre pid) = some code)
    (h2 : ¬ code = "404") :
    download_and_upload se cfg pid url s = (.error ("ClientError " ++ code), s) := by
  simp [download_and_upload, already_in_s3, head_object, h1, h2]

theorem download_absent_loop (se : SyncEnv) (cfg : Config) (pid url : String)
    (s : SyncState) (h : already_in_s3 se s.store (mkKey cfg.s3Pre pid) = .ok false) :
    download_and_upload se cfg pid url s
      = downloadLoop se (mkKey cfg.s3Pre pid) url [1, 2] s := by
  have hr : List.range' 1 PER_FILE_RETRY = [1, 2] := rfl
  simp [download_and_upload, h, hr]

theorem attemptOnce_fails_eq (se : SyncEnv) (key url : String) (a : Nat) (s : SyncState)
    (h : attemptFails se key url a = true) :
    ∃ e, attemptOnce se key url a s
      = (.error e, { s with fetches := s.fetches ++ [(url, a)] }) := by
  unfold attemptFails at h
  cases hf : se.fetchPdf url a with
  | netError => exact ⟨"ConnectionError", by simp [attemptOnce, hf]⟩
  | response status ctype body =>
    rw [hf] at h
    by_cases hs : 400 ≤ status
    · exact ⟨"HTTPError " ++ toString status, by simp [attemptOnce, hf, hs]⟩
    · by_cases hc : ctypeHasPdf (ctype.getD "") = true
      · have hu : se.uploadOk key a = false := by
          simp only [hs, hc] at h
          simpa using h
        exact ⟨"UploadFailed", by simp [attemptOnce, hf, hs, hc, hu]⟩
      · have hc' : ctypeHasPdf (ctype.getD "") = false := by simpa using hc
        exact ⟨"Non-PDF content type " ++ ctype.getD "", by simp [attemptOnce, hf, hs, hc']⟩

theorem attemptOnce_ok_eq (se : SyncEnv) (key url : String) (a : Nat) (s : SyncState)
    (h : attemptFails se key url a = false) :
    ∃ body, attemptOnce se key url a s
      = (.ok (), { s with store := s.store ++ [(key, body)],
                          fetches := s.fetches ++ [(url, a)],
                          uploads := s.uploads ++ [key] }) := by
  unfold attemptFails at h
  cases hf : se.fetchPdf url a with
  | netError => rw [hf] at h; simp at h
  | response status ctype body =>
    rw [hf] at h
    simp only [Bool.or_eq_false_iff, decide_eq_false_iff_not, Bool.not_eq_false'] at h
    obtain ⟨⟨hs, hc⟩, hu⟩ := h
    exact ⟨body, by simp [attemptOnce, hf, hs, hc, hu]⟩

theorem attemptOnce_ok_store (se : SyncEnv) (key url : String) (a : Nat) (s s2 : SyncState)
    (u : Unit) (h : attemptOnce se key url a s = (.ok u, s2)) :
    ∃ body, s2.store = s.store ++ [(key, body)] := by
  unfold attemptOnce at h
  cases hf : se.fetchPdf url a with
  | netError => rw [hf] at h; simp at h
  | response status ctype body =>
    rw [hf] at h
    by_cases hs : 400 ≤ status
    · simp [hs] at h
    · by_cases hc : ctypeHasPdf (ctype.getD "") = true
      · by_cases hu : se.uploadOk key a = true
        · refine ⟨body, ?_⟩
          simp [hs, hc, hu] at h
          rw [← h]
        · simp [hs, hc, hu] at h
      · have hc' : ctypeHasPdf (ctype.getD "") = false := by simpa using hc
        simp [hs, hc'] at h

theorem attemptOnce_store_mono (se : SyncEnv) (key url : String) (a : Nat) (s : SyncState) :
    ∃ t, (attemptOnce se key url a s).2.store = s.store ++ t := by
  cases hf : se.fetchPdf url a with
  | netError => exact ⟨[], by simp [attemptOnce, hf]⟩
  | response status ctype body =>
    by_cases hs : 400 ≤ status
    · exact ⟨[], by simp [attemptOnce, hf, hs]⟩
    · by_cases hc : ctypeHasPdf (ctype.getD "") = true
      · by_cases hu : se.uploadOk key a = true
        · exact ⟨[(key, body)], by simp [attemptOnce, hf, hs, hc, hu]⟩
        · exact ⟨[], by simp [attemptOnce, hf, hs, hc, hu]⟩
      · have hc' : ctypeHasPdf (ctype.getD "") = false := by simpa using hc
        exact ⟨[], by simp [attemptOnce, hf, hs, hc']⟩

theorem hasKey_append_left (store t : List (String × String)) (key : String)
    (h : hasKey store key = true) : hasKey (store ++ t) key = true := by
  simp only [hasKey, List.any_append, Bool.or_eq_true]
  exact Or.inl h

theorem hasKey_append_self (store : List (String × String)) (key body : String) :
    hasKey (store ++ [(key, body)]) key = true := by
  simp [hasKey, List.any_append]

theorem downloadLoop_two_fails (se : SyncEnv) (key url : String) (s : SyncState)
    (h1 : attemptFails se key url 1 = true) (h2 : attemptFails se key url 2 = true) :
    ∃ e, downloadLoop se key url [1, 2] s
        = (.error e, (downloadLoop se key url [1, 2] s).2)
      ∧ (downloadLoop se key url [1, 2] s).2.store = s.store
      ∧ (downloadLoop se key url [1, 2] s).2.uploads = s.uploads
      ∧ (downloadLoop se key url [1, 2] s).2.fetches = s.fetches ++ [(url, 1), (url, 2)]
      ∧ (downloadLoop se key url [1, 2] s).2.sleeps = s.sleeps ++ [2 * 1] := by
  obtain ⟨e1, he1⟩ := attemptOnce_fails_eq se key url 1 s h1
  obtain ⟨e2, he2⟩ := attemptOnce_fails_eq se key url 2
    { s with fetches := s.fetches ++ [(url, 1)], sleeps := s.sleeps ++ [2 * 1] } h2
  refine ⟨e2, ?_, ?_, ?_, ?_, ?_⟩ <;>
    simp [downloadLoop, he1, he2, PER_FILE_RETRY]

theorem downloadLoop_ok_key (se : SyncEnv) (key url : String) :
    ∀ (l : List Nat) (s : SyncState) (st : Option String) (s' : SyncState),
      downloadLoop se key url l s = (.ok st, s') →
      (st = some "ok" ∧ hasKey s'.store key = true) ∨ st = none := by
  intro l
  induction l with
  | nil =>
    intro s st s' h
    simp only [downloadLoop, Prod.mk.injEq, Except.ok.injEq] at h
    exact Or.inr h.1.symm
  | cons a rest ih =>
    intro s st s' h
    rcases hAtt : attemptOnce se key url a s with ⟨r, s2⟩
    cases r with
    | ok u =>
      simp only [downloadLoop, hAtt, Prod.mk.injEq, Except.ok.injEq] at h
      obtain ⟨h1, h2⟩ := h
      obtain ⟨body, hb⟩ := attemptOnce_ok_store se key url a s s2 u hAtt
      refine Or.inl ⟨h1.symm, ?_⟩
      rw [← h2, hb]
      exact hasKey_append_self _ _ _
    | error e =>
      simp only [downloadLoop, hAtt] at h
      by_cases ha : a = PER_FILE_RETRY
      · rw [if_pos ha] at h
        simp at h
      · rw [if_neg ha] at h
        exact ih _ st s' h

theorem downloadLoop_not_none (se : SyncEnv) (key url : String) (s s2 : SyncState)
    (h : downloadLoop se key url [1, 2] s = (.ok none, s2)) : False := by
  rcases h1 : attemptOnce se key url 1 s with ⟨r1, sa⟩
  cases r1 with
  | ok u => simp [downloadLoop, h1] at h
  | error e1 =>
    simp only [downloadLoop, h1] at h
    rw [if_neg (by decide : ¬ ((1 : Nat) = PER_FILE_RETRY))] at h
    rcases h2 : attemptOnce se key url 2 { sa with sleeps := sa.sleeps ++ [2 * 1] }
      with ⟨r2, sb⟩
    cases r2 with
    | ok u => simp [downloadLoop, h2] at h
    | error e2 =>
      simp only [downloadLoop, h2] at h
      rw [if_pos (by decide : (2 : Nat) = PER_FILE_RETRY)] at h
      simp at h

theorem downloadLoop_store_mono (se : SyncEnv) (key url : String) :
    ∀ (l : List Nat) (s : SyncState),
      ∃ t, (downloadLoop se key url l s).2.store = s.store ++ t := by
  intro l
  induction l with
  | nil => intro s; exact ⟨[], by simp [downloadLoop]⟩
  | cons a rest ih =>
    intro s
    rcases hAtt : attemptOnce se key url a s with ⟨r, s2⟩
    have ht1 := attemptOnce_store_mono se key url a s
    rw [hAtt] at ht1
    obtain ⟨t1, ht1⟩ := ht1
    cases r with
    | ok u => exact ⟨t1, by simp [downloadLoop, hAtt]; exact ht1⟩
    | error e =>
      by_cases ha : a = PER_FILE_RETRY
      · refine ⟨t1, ?_⟩
        simp only [downloadLoop, hAtt, if_pos ha]
        exact ht1
      · obtain ⟨t2, ht2⟩ := ih { s2 with sleeps := s2.sleeps ++ [2 * a] }
        refine ⟨t1 ++ t2, ?_⟩
        simp only [downloadLoop, hAtt, if_neg ha]
        rw [ht2]
        simp only at ht2 ⊢
        rw [ht1, List.append_assoc]

theorem download_store_mono (se : SyncEnv) (cfg : Config) (pid url : String)
    (s : SyncState) :
    ∃ t, (download_and_upload se cfg pid url s).2.store = s.store ++ t := by
  cases hA : already_in_s3 se s.store (mkKey cfg.s3Pre pid) with
  | error code => exact ⟨[], by simp [download_and_upload, hA]⟩
  | ok b =>
    cases b with
    | true => exact ⟨[], by simp [download_and_upload, hA]⟩
    | false =>
      obtain ⟨t, ht⟩ :=
        downloadLoop_store_mono se (mkKey cfg.s3Pre pid) url (List.range' 1 PER_FILE_RETRY) s
      exact ⟨t, by simp [download_and_upload, hA]; exact ht⟩

theorem download_ok_key (se : SyncEnv) (cfg : Config) (pid url : String) (s : SyncState)
    (st : Option String) (s2 : SyncState)
    (hhead : se.headErr (mkKey cfg.s3Pre pid) = none)
    (h : download_and_upload se cfg pid url s = (.ok st, s2)) :
    hasKey s2.store (mkKey cfg.s3Pre pid) = true := by
  by_cases hk : hasKey s.store (mkKey cfg.s3Pre pid) = true
  · rw [download_skip_of_present se cfg pid url s hhead hk] at h
    simp only [Prod.mk.injEq] at h
    rw [← h.2]
    exact hk
  · have hk' : hasKey s.store (mkKey cfg.s3Pre pid) = false := by simpa using hk
    have habs := already_in_s3_absent se s.store (mkKey cfg.s3Pre pid) hhead hk'
    rw [download_absent_loop se cfg pid url s habs] at h
    rcases downloadLoop_ok_key se (mkKey cfg.s3Pre pid) url [1, 2] s st s2 h
      with ⟨h1, h2⟩ | hnone
    · exact h2
    · subst hnone
      exact absurd h (fun hc => downloadLoop_not_none se _ url s s2 hc)

theorem entryLoop_fail_mono (se : SyncEnv) (cfg : Config) :
    ∀ (pairs : List (String × String)) (ok skip fail : Nat) (s : SyncState),
      fail ≤ ((entryLoop se cfg pairs ok skip fail s).1).2.2 := by
  intro pairs
  induction pairs with
  | nil => intro ok skip fail s; simp [entryLoop]
  | cons q rest ih =>
    intro ok skip fail s
    obtain ⟨pid, url⟩ := q
    rcases hd : download_and_upload se cfg pid url s with ⟨r, s2⟩
    cases r with
    | ok st =>
      by_cases hst : st = some "ok"
      · simp only [entryLoop, hd, if_pos hst]
        exact ih (ok + 1) skip fail s2
      · simp only [entryLoop, hd, if_neg hst]
        exact ih ok (skip + 1) fail s2
    | error e =>
      simp only [entryLoop, hd]
      exact Nat.le_trans (Nat.le_succ fail) (ih ok skip (fail + 1) s2)

theorem entryLoop_sum (se : SyncEnv) (cfg : Config) :
    ∀ (pairs : List (String × String)) (ok skip fail : Nat) (s : SyncState)
      (a b c : Nat) (s' : SyncState),
      entryLoop se cfg pairs ok skip fail s = ((a, b, c), s') →
      a + b + c = ok + skip + fail + pairs.length := by
  intro pairs
  induction pairs with
  | nil =>
    intro ok skip fail s a b c s' h
    simp only [entryLoop, Prod.mk.injEq] at h
    obtain ⟨⟨h1, h2, h3⟩, _⟩ := h
    simp only [List.length_nil]
    omega
  | cons q rest ih =>
    intro ok skip fail s a b c s' h
    obtain ⟨pid, url⟩ := q
    rcases hd : download_and_upload se cfg pid url s with ⟨r, s2⟩
    cases r with
    | ok st =>
      by_cases hst : st = some "ok"
      · simp only [entryLoop, hd, if_pos hst] at h
        have := ih (ok + 1) skip fail s2 a b c s' h
        simp only [List.length_cons]
        omega
      · simp only [entryLoop, hd, if_neg hst] at h
        have := ih ok (skip + 1) fail s2 a b c s' h
        simp only [List.length_cons]
        omega
    | error e =>
      simp only [entryLoop, hd] at h
      have := ih ok skip (fail + 1) s2 a b c s' h
      simp only [List.length_cons]
      omega

theorem entryLoop_store_mono (se : SyncEnv) (cfg : Config) :
    ∀ (pairs : List (String × String)) (ok skip fail : Nat) (s : SyncState),
      ∃ t, ((entryLoop se cfg pairs ok skip fail s).2).store = s.store ++ t := by
  intro pairs
  induction pairs with
  | nil => intro ok skip fail s; exact ⟨[], by simp [entryLoop]⟩
  | cons q rest ih =>
    intro ok skip fail s
    obtain ⟨pid, url⟩ := q
    rcases hd : download_and_upload se cfg pid url s with ⟨r, s2⟩
    have ht1 := download_store_mono se cfg pid url s
    rw [hd] at ht1
    obtain ⟨t1, ht1⟩ := ht1
    cases r with
    | ok st =>
      by_cases hst : st = some "ok"
      · obtain ⟨t2, ht2⟩ := ih (ok + 1) skip fail s2
        refine ⟨t1 ++ t2, ?_⟩
        simp only [entryLoop, hd, if_pos hst]
        rw [ht2, ht1, List.append_assoc]
      · obtain ⟨t2, ht2⟩ := ih ok (skip + 1) fail s2
        refine ⟨t1 ++ t2, ?_⟩
        simp only [entryLoop, hd, if_neg hst]
        rw [ht2, ht1, List.append_assoc]
    | error e =>
      obtain ⟨t2, ht2⟩ := ih ok skip (fail + 1) s2
      refine ⟨t1 ++ t2, ?_⟩
      simp only [entryLoop, hd]
      rw [ht2, ht1, List.append_assoc]

theorem entryLoop_nofail_keys (se : SyncEnv) (cfg : Config) :
    ∀ (pairs : List (String × String)) (ok skip fail : Nat) (s : SyncState)
      (a b : Nat) (s' : SyncState),
      entryLoop se cfg pairs ok skip fail s = ((a, b, fail), s') →
      ∀ p ∈ pairs, se.headErr (mkKey cfg.s3Pre p.1) = none →
        hasKey s'.store (mkKey cfg.s3Pre p.1) = true := by
  intro pairs
  induction pairs with
  | nil =>
    intro ok skip fail s a b s' h p hp
    simp at hp
  | cons q rest ih =>
    intro ok skip fail s a b s' h p hp hhead
    obtain ⟨pid, url⟩ := q
    rcases hd : download_and_upload se cfg pid url s with ⟨r, s2⟩
    cases r with
    | error e =>
      exfalso
      simp only [entryLoop, hd] at h
      have hmono := entryLoop_fail_mono se cfg rest ok skip (fail + 1) s2
      rw [h] at hmono
      simp at hmono
    | ok st =>
      rcases List.mem_cons.mp hp with hpq | hprest
      · subst hpq
        have hkey : hasKey s2.store (mkKey cfg.s3Pre pid) = true :=
          download_ok_key se cfg pid url s st s2 hhead hd
        by_cases hst : st = some "ok"
        · simp only [entryLoop, hd, if_pos hst] at h
          obtain ⟨t, ht⟩ := entryLoop_store_mono se cfg rest (ok + 1) skip fail s2
          rw [h] at ht
          rw [ht]
          exact hasKey_append_left _ _ _ hkey
        · simp only [entryLoop, hd, if_neg hst] at h
          obtain ⟨t, ht⟩ := entryLoop_store_mono se cfg rest ok (skip + 1) fail s2
          rw [h] at ht
          rw [ht]
          exact hasKey_append_left _ _ _ hkey
      · by_cases hst : st = some "ok"
        · simp only [entryLoop, hd, if_pos hst] at h
          exact ih (ok + 1) skip fail s2 a b s' h p hprest hhead
        · simp only [entryLoop, hd, if_neg hst] at h
          exact ih ok (skip + 1) fail s2 a b s' h p hprest hhead

theorem entryLoop_all_present (se : SyncEnv) (cfg : Config) :
    ∀ (pairs : List (String × String)) (ok skip fail : Nat) (s : SyncState),
      (∀ p ∈ pairs, se.headErr (mkKey cfg.s3Pre p.1) = none
          ∧ hasKey s.store (mkKey cfg.s3Pre p.1) = true) →
      entryLoop se cfg pairs ok skip fail s = ((ok, skip + pairs.length, fail), s) := by
  intro pairs
  induction pairs with
  | nil => intro ok skip fail s _; simp [entryLoop]
  | cons q rest ih =>
    intro ok skip fail s hall
    obtain ⟨pid, url⟩ := q
    obtain ⟨hh, hk⟩ := hall (pid, url) (List.mem_cons_self _ _)
    have hd := download_skip_of_present se cfg pid url s hh hk
    simp only [entryLoop, hd]
    rw [if_neg (by simp : ¬ ((some "skipped" : Option String) = some "ok"))]
    rw [ih ok (skip + 1) fail s (fun p hp => hall p (List.mem_cons_of_mem _ hp))]
    have harith : skip + 1 + rest.length = skip + (rest.length + 1) := by omega
    simp only [List.length_cons, harith]

theorem attemptFails_of_nonPdf (se : SyncEnv) (key url : String) (a : Nat)
    (h : nonPdfSuccess (se.fetchPdf url a) = true) :
    attemptFails se key url a = true := by
  cases hf : se.fetchPdf url a with
  | netError => simp [attemptFails, hf]
  | response status ctype body =>
    rw [hf] at h
    simp only [nonPdfSuccess, Bool.and_eq_true, decide_eq_true_eq] at h
    obtain ⟨hs, hc⟩ := h
    simp [attemptFails, hf, hc]

/-! ### Claim theorems -/

/-- C1 (amended): every completed invocation returns the structured
counter result keyed "ok", "skipped" and "failed" in that order, and
carries no "synced" key. -/
theorem C1_output_keys (env : Env) (cfg : Config) (s0 : SyncState)
    (r : List (String × Nat)) (s1 : SyncState)
    (h : lambda_handler env cfg s0 = (.ok r, s1)) :
    ∃ a b c, r = [("ok", a), ("skipped", b), ("failed", c)]
      ∧ r.map Prod.fst = ["ok", "skipped", "failed"]
      ∧ "synced" ∉ r.map Prod.fst := by
  cases hf : fetch_feed env with
  | error e => simp [lambda_handler, hf] at h
  | ok feed =>
    simp only [lambda_handler, hf, Prod.mk.injEq, Except.ok.injEq] at h
    refine ⟨_, _, _, h.1.symm, ?_, ?_⟩ <;> rw [← h.1] <;> simp

/-- C1 counterexample: a completed invocation whose returned result has
no "synced" key at all (the synced count is returned under the key
"ok"), refuting the claim that the counts are keyed synced, skipped,
failed. -/
theorem C1_cex :
    (lambda_handler envGood cfg1 sEmpty).1
        = .ok [("ok", 1), ("skipped", 0), ("failed", 0)]
    ∧ "synced" ∉ ([("ok", 1), ("skipped", 0), ("failed", 0)] : List (String × Nat)).map
        Prod.fst := by
  exact ⟨by decide, by decide⟩

/-- C1 witness: the key-shape theorem applied to a concrete completed
invocation. -/
theorem C1_w :
    ∃ a b c, ([("ok", 1), ("skipped", 0), ("failed", 0)] : List (String × Nat))
        = [("ok", a), ("skipped", b), ("failed", c)]
      ∧ ([("ok", 1), ("skipped", 0), ("failed", 0)] : List (String × Nat)).map Prod.fst
          = ["ok", "skipped", "failed"]
      ∧ "synced" ∉ ([("ok", 1), ("skipped", 0), ("failed", 0)] : List (String × Nat)).map
          Prod.fst :=
  C1_output_keys envGood cfg1 sEmpty [("ok", 1), ("skipped", 0), ("failed", 0)]
    sAfterGood (by decide)

/-- C2 (amended): if the first run completes with failed = 0 and the
store reports no head service error for any derived key, then running
again with the feed, store and network conditions unchanged yields
skipped equal to the number of entries with a usable PDF link and
ok (synced) equal to 0, with the run state unchanged — no redundant
transfer occurs. -/
theorem C2_second_run_idempotent (env : Env) (cfg : Config) (s0 : SyncState)
    (a b : Nat) (s1 : SyncState) (feed : Feed)
    (hfeed : fetch_feed env = .ok feed)
    (hhead : ∀ p ∈ (iter_entries feed).1, env.sync.headErr (mkKey cfg.s3Pre p.1) = none)
    (hrun1 : lambda_handler env cfg s0
        = (.ok [("ok", a), ("skipped", b), ("failed", 0)], s1)) :
    lambda_handler env cfg s1
      = (.ok [("ok", 0), ("skipped", (iter_entries feed).1.length), ("failed", 0)], s1) := by
  rcases hE : entryLoop env.sync cfg (iter_entries feed).1 0 0 0 s0 with ⟨⟨a', b', f'⟩, s1'⟩
  simp only [lambda_handler, hfeed, hE, Prod.mk.injEq, Except.ok.injEq,
    List.cons.injEq] at hrun1
  obtain ⟨⟨⟨-, ha⟩, ⟨-, hb⟩, ⟨-, hf0⟩, -⟩, hs⟩ := hrun1
  subst ha
  subst hb
  subst hf0
  subst hs
  have hkeys := entryLoop_nofail_keys env.sync cfg (iter_entries feed).1 0 0 0 s0 a' b' s1' hE
  have hall : ∀ p ∈ (iter_entries feed).1,
      env.sync.headErr (mkKey cfg.s3Pre p.1) = none
        ∧ hasKey s1'.store (mkKey cfg.s3Pre p.1) = true :=
    fun p hp => ⟨hhead p hp, hkeys p hp (hhead p hp)⟩
  have h2 := entryLoop_all_present env.sync cfg (iter_entries feed).1 0 0 0 s1' hall
  simp only [lambda_handler, hfeed, h2]
  simp

/-- C2 counterexample: one entry with a PDF link whose fetch always
fails with a network error; with feed and store unchanged, the second
run yields skipped = 0 (and failed = 1), not skipped = 1 = the number of
entries with a PDF link, refuting the unconditional claim. -/
theorem C2_cex :
    (iter_entries feed1).1.length = 1
    ∧ (lambda_handler envBad cfg1 sEmpty).1
        = .ok [("ok", 0), ("skipped", 0), ("failed", 1)]
    ∧ (lambda_handler envBad cfg1 (lambda_handler envBad cfg1 sEmpty).2).1
        = .ok [("ok", 0), ("skipped", 0), ("failed", 1)] := by
  exact ⟨by decide, by decide, by decide⟩

/-- C2 witness: the amended idempotence theorem applied to a concrete
healthy run. -/
theorem C2_w :
    lambda_handler envGood cfg1 sAfterGood
      = (.ok [("ok", 0), ("skipped", (iter_entries feed1).1.length), ("failed", 0)],
         sAfterGood) :=
  C2_second_run_idempotent envGood cfg1 sEmpty 1 0 sAfterGood feed1 (by decide)
    (by decide) (by decide)

/-- C3: an entry whose canonical key (prefix + identifier + ".pdf")
already exists in the store (and whose head check reports no service
error) returns the skipped outcome with the run state unchanged — in
particular no outbound fetch of its PDF link is recorded — whatever the
contents of the link, malformed or not. -/
theorem C3_existing_key_skipped (se : SyncEnv) (cfg : Config) (pid url : String)
    (s : SyncState) (h1 : se.headErr (mkKey cfg.s3Pre pid) = none)
    (h2 : hasKey s.store (mkKey cfg.s3Pre pid) = true) :
    download_and_upload se cfg pid url s = (.ok (some "skipped"), s)
    ∧ (download_and_upload se cfg pid url s).2.fetches = s.fetches := by
  have h := download_skip_of_present se cfg pid url s h1 h2
  exact ⟨h, by rw [h]⟩

/-- C3 witness: the skip theorem applied to a store that already holds
the canonical key, with a malformed link. -/
theorem C3_w :
    download_and_upload seAll cfg1 "2505.05471v1" "::malformed::" sWithKey
      = (.ok (some "skipped"), sWithKey)
    ∧ (download_and_upload seAll cfg1 "2505.05471v1" "::malformed::" sWithKey).2.fetches
      = sWithKey.fetches :=
  C3_existing_key_skipped seAll cfg1 "2505.05471v1" "::malformed::" sWithKey
    (by decide) (by decide)

/-- C4: with the key absent, success-status responses whose Content-Type
lacks a case-insensitive "pdf" substring are never stored: both attempts
leave the store and upload trace unchanged, the retry path is taken (two
fetches recorded), the exhausted entry raises, and the orchestrator
counts it as failed and proceeds. -/
theorem C4_content_type_gate (se : SyncEnv) (cfg : Config) (pid url : String)
    (s : SyncState) (rest : List (String × String)) (ok skip fail : Nat)
    (hhead : se.headErr (mkKey cfg.s3Pre pid) = none)
    (habs : hasKey s.store (mkKey cfg.s3Pre pid) = false)
    (hresp : ∀ a ∈ List.range' 1 PER_FILE_RETRY,
        nonPdfSuccess (se.fetchPdf url a) = true) :
    ∃ msg, download_and_upload se cfg pid url s
        = (.error msg, (download_and_upload se cfg pid url s).2)
      ∧ (download_and_upload se cfg pid url s).2.store = s.store
      ∧ (download_and_upload se cfg pid url s).2.uploads = s.uploads
      ∧ (download_and_upload se cfg pid url s).2.fetches = s.fetches ++ [(url, 1), (url, 2)]
      ∧ entryLoop se cfg ((pid, url) :: rest) ok skip fail s
          = entryLoop se cfg rest ok skip (fail + 1)
              (download_and_upload se cfg pid url s).2 := by
  have h1 := attemptFails_of_nonPdf se (mkKey cfg.s3Pre pid) url 1 (hresp 1 (by decide))
  have h2 := attemptFails_of_nonPdf se (mkKey cfg.s3Pre pid) url 2 (hresp 2 (by decide))
  have habs' := already_in_s3_absent se s.store (mkKey cfg.s3Pre pid) hhead habs
  have hDE := download_absent_loop se cfg pid url s habs'
  obtain ⟨e, hLoop, hst, hup, hfetch, hsleep⟩ :=
    downloadLoop_two_fails se (mkKey cfg.s3Pre pid) url s h1 h2
  refine ⟨e, ?_, ?_, ?_, ?_, ?_⟩
  · rw [hDE]; exact hLoop
  · rw [hDE]; exact hst
  · rw [hDE]; exact hup
  · rw [hDE]; exact hfetch
  · have hD : download_and_upload se cfg pid url s
        = (.error e, (download_and_upload se cfg pid url s).2) := by
      rw [hDE]; exact hLoop
    simp only [entryLoop]
    rw [hD]

/-- C4 witness: the content-type gate theorem applied to an environment
returning status 200 with Content-Type text/html on every attempt. -/
theorem C4_w :
    ∃ msg, download_and_upload seHtml cfg1 "2505.05471v1" "http://x/pdf" sEmpty
        = (.error msg, (download_and_upload seHtml cfg1 "2505.05471v1" "http://x/pdf" sEmpty).2)
      ∧ (download_and_upload seHtml cfg1 "2505.05471v1" "http://x/pdf" sEmpty).2.store
          = sEmpty.store
      ∧ (download_and_upload seHtml cfg1 "2505.05471v1" "http://x/pdf" sEmpty).2.uploads
          = sEmpty.uploads
      ∧ (download_and_upload seHtml cfg1 "2505.05471v1" "http://x/pdf" sEmpty).2.fetches
          = sEmpty.fetches ++ [("http://x/pdf", 1), ("http://x/pdf", 2)]
      ∧ entryLoop seHtml cfg1 [("2505.05471v1", "http://x/pdf")] 0 0 0 sEmpty
          = entryLoop seHtml cfg1 [] 0 0 (0 + 1)
              (download_and_upload seHtml cfg1 "2505.05471v1" "http://x/pdf" sEmpty).2 :=
  C4_content_type_gate seHtml cfg1 "2505.05471v1" "http://x/pdf" sEmpty [] 0 0 0
    (by decide) (by decide) (by decide)

/-- C5: with the key absent, if every fetch-and-store attempt fails (any
of: network error, non-success status, content-type mismatch, or
store-write failure), the entry is attempted exactly PER_FILE_RETRY = 2
times with a 2 * attempt_number second sleep between attempt 1 and
attempt 2, the final exception propagates as the failure of this entry, the
orchestrator increments the failure counter, and the run proceeds with
the remaining entries rather than aborting. -/
theorem C5_retry_policy (se : SyncEnv) (cfg : Config) (pid url : String)
    (s : SyncState) (rest : List (String × String)) (ok skip fail : Nat)
    (hhead : se.headErr (mkKey cfg.s3Pre pid) = none)
    (habs : hasKey s.store (mkKey cfg.s3Pre pid) = false)
    (hfail : ∀ a ∈ List.range' 1 PER_FILE_RETRY,
        attemptFails se (mkKey cfg.s3Pre pid) url a = true) :
    ∃ msg, download_and_upload se cfg pid url s
        = (.error msg, (download_and_upload se cfg pid url s).2)
      ∧ (download_and_upload se cfg pid url s).2.fetches = s.fetches ++ [(url, 1), (url, 2)]
      ∧ (download_and_upload se cfg pid url s).2.sleeps = s.sleeps ++ [2 * 1]
      ∧ (download_and_upload se cfg pid url s).2.store = s.store
      ∧ entryLoop se cfg ((pid, url) :: rest) ok skip fail s
          = entryLoop se cfg rest ok skip (fail + 1)
              (download_and_upload se cfg pid url s).2 := by
  have h1 := hfail 1 (by decide)
  have h2 := hfail 2 (by decide)
  have habs' := already_in_s3_absent se s.store (mkKey cfg.s3Pre pid) hhead habs
  have hDE := download_absent_loop se cfg pid url s habs'
  obtain ⟨e, hLoop, hst, hup, hfetch, hsleep⟩ :=
    downloadLoop_two_fails se (mkKey cfg.s3Pre pid) url s h1 h2
  refine ⟨e, ?_, ?_, ?_, ?_, ?_⟩
  · rw [hDE]; exact hLoop
  · rw [hDE]; exact hfetch
  · rw [hDE]; exact hsleep
  · rw [hDE]; exact hst
  · have hD : download_and_upload se cfg pid url s
        = (.error e, (download_and_upload se cfg pid url s).2) := by
      rw [hDE]; exact hLoop
    simp only [entryLoop]
    rw [hD]

/-- C5 witness: the retry-policy theorem applied to an environment whose
PDF fetches always raise a network error. -/
theorem C5_w :
    ∃ msg, download_and_upload seBad cfg1 "2505.05471v1" "http://x/pdf" sEmpty
        = (.error msg, (download_and_upload seBad cfg1 "2505.05471v1" "http://x/pdf" sEmpty).2)
      ∧ (download_and_upload seBad cfg1 "2505.05471v1" "http://x/pdf" sEmpty).2.fetches
          = sEmpty.fetches ++ [("http://x/pdf", 1), ("http://x/pdf", 2)]
      ∧ (download_and_upload seBad cfg1 "2505.05471v1" "http://x/pdf" sEmpty).2.sleeps
          = sEmpty.sleeps ++ [2 * 1]
      ∧ (download_and_upload seBad cfg1 "2505.05471v1" "http://x/pdf" sEmpty).2.store
          = sEmpty.store
      ∧ entryLoop seBad cfg1 [("2505.05471v1", "http://x/pdf")] 0 0 0 sEmpty
          = entryLoop seBad cfg1 [] 0 0 (0 + 1)
              (download_and_upload seBad cfg1 "2505.05471v1" "http://x/pdf" sEmpty).2 :=
  C5_retry_policy seBad cfg1 "2505.05471v1" "http://x/pdf" sEmpty [] 0 0 0
    (by decide) (by decide) (by decide)

/-- C6: an existence-check service error with a code other than "404" is
recorded as the failure of the entry with the run state unchanged (so no
fetch of the PDF link is attempted) and the loop proceeds; a "404" code
is treated as the key being absent, not as a failure. -/
theorem C6_store_error_fails_entry (se : SyncEnv) (cfg : Config) (pid url : String)
    (s : SyncState) (code : String) (rest : List (String × String)) (ok skip fail : Nat)
    (h : se.headErr (mkKey cfg.s3Pre pid) = some code) :
    (¬ code = "404" →
        download_and_upload se cfg pid url s = (.error ("ClientError " ++ code), s)
        ∧ entryLoop se cfg ((pid, url) :: rest) ok skip fail s
            = entryLoop se cfg rest ok skip (fail + 1) s)
    ∧ (code = "404" →
        already_in_s3 se s.store (mkKey cfg.s3Pre pid) = .ok false) := by
  constructor
  · intro hne
    have hd := download_headErr se cfg pid url s code h hne
    exact ⟨hd, by simp only [entryLoop, hd]⟩
  · intro he
    subst he
    simp [already_in_s3, head_object, h]

/-- C6 witness: the store-error theorem applied to an environment whose
head checks always report a 500 service error. -/
theorem C6_w :
    (¬ "500" = "404" →
        download_and_upload seErr500 cfg1 "2505.05471v1" "http://x/pdf" sEmpty
          = (.error ("ClientError " ++ "500"), sEmpty)
        ∧ entryLoop seErr500 cfg1 [("2505.05471v1", "http://x/pdf")] 0 0 0 sEmpty
            = entryLoop seErr500 cfg1 [] 0 0 (0 + 1) sEmpty)
    ∧ ("500" = "404" →
        already_in_s3 seErr500 sEmpty.store (mkKey cfg1.s3Pre "2505.05471v1")
          = .ok false) :=
  C6_store_error_fails_entry seErr500 cfg1 "2505.05471v1" "http://x/pdf" sEmpty "500"
    [] 0 0 0 (by decide)

/-- C9: any feed-level failure — unreachable endpoint, non-success
status, or unparsable body — makes fetch_feed raise, and the run then
aborts with the error re-raised and the state unchanged, before any
entry is processed; no zero-count success result is returned. -/
theorem C9_feed_failure_aborts (cfg : Config) (s0 : SyncState) (se : SyncEnv) :
    (∀ (env : Env) (e : String), fetch_feed env = .error e →
        lambda_handler env cfg s0 = (.error e, s0))
    ∧ (∀ (status : Nat) (parsed : Except String Feed), 400 ≤ status →
        fetch_feed ⟨.response status parsed, se⟩
          = .error ("HTTPError " ++ toString status))
    ∧ fetch_feed ⟨.netError, se⟩ = .error "ConnectionError"
    ∧ (∀ (status : Nat) (msg : String), status < 400 →
        fetch_feed ⟨.response status (.error msg), se⟩ = .error msg) := by
  refine ⟨?_, ?_, rfl, ?_⟩
  · intro env e hf
    simp [lambda_handler, hf]
  · intro status parsed hs
    simp [fetch_feed, hs]
  · intro status msg hs
    have hns : ¬ 400 ≤ status := Nat.not_le.mpr hs
    simp [fetch_feed, hns]

/-- C9 witness: a feed endpoint answering HTTP 500 aborts the concrete
run with the state unchanged. -/
theorem C9_w :
    lambda_handler { feedHttp := .response 500 (.ok feed1), sync := seAll } cfg1 sEmpty
      = (.error ("HTTPError " ++ toString 500), sEmpty) :=
  (C9_feed_failure_aborts cfg1 sEmpty seAll).1
    { feedHttp := .response 500 (.ok feed1), sync := seAll } _
    ((C9_feed_failure_aborts cfg1 sEmpty seAll).2.1 500 (.ok feed1) (by decide))

/-- C10: every completed invocation returns counters over the keys ok,
skipped, failed whose sum equals the number of (identifier, link) pairs
yielded by the entry resolver: each yielded pair increments exactly one
counter and dropped entries increment none. -/
theorem C10_counter_partition (env : Env) (cfg : Config) (s0 : SyncState)
    (r : List (String × Nat)) (s1 : SyncState)
    (h : lambda_handler env cfg s0 = (.ok r, s1)) :
    ∃ feed a b c, fetch_feed env = .ok feed
      ∧ r = [("ok", a), ("skipped", b), ("failed", c)]
      ∧ a + b + c = (iter_entries feed).1.length := by
  cases hf : fetch_feed env with
  | error e => simp [lambda_handler, hf] at h
  | ok feed =>
    rcases hE : entryLoop env.sync cfg (iter_entries feed).1 0 0 0 s0 with ⟨⟨a, b, c⟩, s'⟩
    refine ⟨feed, a, b, c, hf ▸ rfl, ?_, ?_⟩
    · simp only [lambda_handler, hf, hE, Prod.mk.injEq, Except.ok.injEq] at h
      exact h.1.symm
    · have hsum := entryLoop_sum env.sync cfg (iter_entries feed).1 0 0 0 s0 a b c s' hE
      omega

/-- C10 witness: the partition theorem applied to a concrete completed
invocation with one synced entry. -/
theorem C10_w :
    ∃ feed a b c, fetch_feed envGood = .ok feed
      ∧ ([("ok", 1), ("skipped", 0), ("failed", 0)] : List (String × Nat))
          = [("ok", a), ("skipped", b), ("failed", c)]
      ∧ a + b + c = (iter_entries feed).1.length :=
  C10_counter_partition envGood cfg1 sEmpty [("ok", 1), ("skipped", 0), ("failed", 0)]
    sAfterGood (by decide)

/-- C8 witness: the missing-link theorem applied to a concrete entry
whose only link is titled "doi". -/
theorem C8_w :
    (iterEntriesList ([] ++ entryNoLink :: [])).1 = (iterEntriesList ([] ++ [])).1
    ∧ (iterEntriesList ([] ++ entryNoLink :: [])).2
        = (iterEntriesList []).2
            ++ ("no pdf link for " ++ rsplitLast entryNoLink.idText) :: (iterEntriesList []).2
    ∧ lambda_handler ⟨.response 200 (.ok ⟨[] ++ entryNoLink :: []⟩), seAll⟩ cfg1 sEmpty
        = lambda_handler ⟨.response 200 (.ok ⟨[] ++ []⟩), seAll⟩ cfg1 sEmpty :=
  C8_missing_link_dropped [] [] entryNoLink seAll cfg1 sEmpty (by decide)
